import Mathlib

/-!
Verification of the stanza fileconsumer core: the lost-file reconciliation
loop (`Manager.readLostFiles`, pkg/stanza/fileconsumer/file_other.go) and
Reader reconstruction (`Factory.NewReaderFromMetadata`, internal/reader
package). Pure shallow embedding: machine side effects (stat, disk reads,
attribute resolution, header-reader construction) appear as explicit inputs
carried by a file-handle model.
-/

/-- A fingerprint is the ordered sequence of leading bytes of a file's content. -/
abbrev Fingerprint := List Nat

/-- Modelled from the spec: the fingerprint package body is not among the
provided sources; per the spec, `a.StartsWith b` returns true iff `b` is a
byte-prefix of the receiver `a`. -/
def Fingerprint.StartsWith (a b : Fingerprint) : Bool :=
  b.isPrefixOf a

/-- The observations `readLostFiles` makes of a `reader.Reader`: its file name
(`GetFileName` / `NameEquals`), its retained `Fingerprint`, and the outcome of
`Validate()` (modelled from the spec: `Validate` re-checks the file's current
on-disk content against the retained fingerprint; its outcome at poll time is
carried as a field). -/
structure PollReader where
  fileName : String
  fingerprint : Fingerprint
  validates : Bool
deriving DecidableEq, Repr

/-- Modelled from the spec: `new.Name == old.Name` (reader.NameEquals). -/
def PollReader.NameEquals (a b : PollReader) : Bool :=
  a.fileName = b.fileName

/-- Modelled from the spec: outcome of `Validate()` for this poll. -/
def PollReader.Validate (r : PollReader) : Bool :=
  r.validates

/-- The inner loop of `readLostFiles` for one previous-poll reader `old`,
scanning `CurrentPollFiles` in order. Returns `false` when a `continue OUTER`
fires (the reader is cleared: fingerprint-prefix partner, or same-name partner
with failed `Validate`, i.e. truncated in place) and `true` when the loop falls
through and `old` is appended to the lost set. -/
def scanPartners (old : PollReader) : List PollReader → Bool
  | [] => true
  | newR :: rest =>
    if newR.fingerprint.StartsWith old.fingerprint then
      false
    else if !(newR.NameEquals old) then
      scanPartners old rest
    else if !old.Validate then
      false
    else
      scanPartners old rest

/-- `Manager.readLostFiles` (file_other.go): returns the lost set, the list of
previous-poll readers that are subsequently drained by the worker loop. When
`DeleteAtEOF` is set the function returns immediately and nothing is drained. -/
def readLostFiles (deleteAtEOF : Bool)
    (previousPollFiles currentPollFiles : List PollReader) : List PollReader :=
  if deleteAtEOF then
    []
  else
    previousPollFiles.filter (fun old => scanPartners old currentPollFiles)

/-- Persisted state of one tracked file (internal/reader Metadata), restricted
to the fields `NewReaderFromMetadata` reads or writes. -/
structure Metadata where
  fingerprint : Fingerprint
  offset : Int
  fileAttributes : List (String × String)
  headerFinalized : Bool
deriving DecidableEq, Repr

/-- The fields of `Factory` that `NewReaderFromMetadata` branches on.
`headerReaderOk` models the outcome of the external `header.NewReader`
constructor when a header configuration is present. -/
structure Factory where
  fromBeginning : Bool
  fingerprintSize : Nat
  headerConfigPresent : Bool
  headerReaderOk : Bool
deriving DecidableEq, Repr

/-- A model of the open `*os.File` handle together with the outcomes of the
machine effects `NewReaderFromMetadata` performs on it: re-reading the
fingerprint bytes (`fpReadOk`), `Stat` (`statOk`; the reported size is the
content length), and external attribute resolution (`resolveResult`). -/
structure FileHandle where
  name : String
  content : List Nat
  fpReadOk : Bool
  statOk : Bool
  resolveResult : Option (List (String × String))
deriving DecidableEq, Repr

/-- Modelled from the spec: `fingerprint.NewFromFile` reads up to `size` bytes
from the head of the file (decompressed content is modelled directly) and
fails only on an I/O error. -/
def Fingerprint.NewFromFile (file : FileHandle) (size : Nat) : Option Fingerprint :=
  if file.fpReadOk then some (file.content.take size) else none

/-- The error outcomes of `NewReaderFromMetadata`, in source order. -/
inductive ReadErr where
  | rereadFingerprint
  | fileTruncated
  | statFailed
  | headerFailed
  | resolveFailed
deriving DecidableEq, Repr

/-- The constructed `Reader`. The Go `Reader` embeds `*Metadata`, so its
`Offset`, `Fingerprint` and `FileAttributes` ARE those of the metadata it
wraps; the model keeps them in the `metadata` field. -/
structure Reader where
  fileName : String
  metadata : Metadata
deriving DecidableEq, Repr

/-- One Go map assignment `dst[k] = v` on an association-list map: replaces
the value at an existing key, otherwise appends the pair. -/
def mapAssign : List (String × String) → String × String → List (String × String)
  | [], kv => [kv]
  | p :: rest, kv =>
    if p.1 = kv.1 then (kv.1, kv.2) :: rest else p :: mapAssign rest kv

/-- `maps.Copy(dst, src)`: assigns every pair of `src` into `dst`; keys in
both maps take the value from `src`. -/
def mapsCopy (dst src : List (String × String)) : List (String × String) :=
  src.foldl mapAssign dst

/-- Go map lookup on the association-list model. -/
def lookupA : List (String × String) → String → Option String
  | [], _ => none
  | p :: rest, k => if p.1 = k then some p.2 else lookupA rest k

/-- The copy-truncate guard on the stored offset (source lines 120-128): an
offset beyond the current file size is reset to 0. -/
def resetOffset (storedOffset fileSize : Int) : Int :=
  if storedOffset > fileSize then 0 else storedOffset

/-- The starting-offset decision (source lines 130-152): resume at a non-zero
offset; at offset 0 start at 0 under `FromBeginning` and at the file size
(end of file) otherwise. -/
def resolveStart (f : Factory) (fileSize offset : Int) : Int :=
  if offset = 0 then (if f.fromBeginning then 0 else fileSize) else offset

/-- Tail of `NewReaderFromMetadata` from the `file.Stat()` call on (source
lines 113-178): copy-truncate offset reset, starting-offset resolution,
optional header-reader construction, attribute re-resolution and merge.
Returns the metadata as left at the return point (the caller's `*Metadata`
is mutated in place in Go) alongside the result. -/
def resolveOffsetAndFinish (f : Factory) (file : FileHandle) (m : Metadata) :
    Metadata × Except ReadErr Reader :=
  if file.statOk then
    let fileSize : Int := file.content.length
    let m1 := { m with offset := resetOffset m.offset fileSize }
    let m2 := { m1 with offset := resolveStart f fileSize m1.offset }
    if f.headerConfigPresent && !m2.headerFinalized && !f.headerReaderOk then
      (m2, .error .headerFailed)
    else
      match file.resolveResult with
      | none => (m2, .error .resolveFailed)
      | some attrs =>
        let m3 := { m2 with fileAttributes := mapsCopy m2.fileAttributes attrs }
        (m3, .ok { fileName := file.name, metadata := m3 })
  else
    (m, .error .statFailed)

/-- `Factory.NewReaderFromMetadata`: fingerprint length-mismatch handling
(source lines 101-111) followed by `resolveOffsetAndFinish`. The first
component is the state of the caller's `Metadata` at the return point. -/
def NewReaderFromMetadata (f : Factory) (file : FileHandle) (m : Metadata) :
    Metadata × Except ReadErr Reader :=
  if m.fingerprint.length > f.fingerprintSize then
    match Fingerprint.NewFromFile file f.fingerprintSize with
    | none => (m, .error .rereadFingerprint)
    | some shorter =>
      if m.fingerprint.StartsWith shorter then
        resolveOffsetAndFinish f file { m with fingerprint := shorter }
      else
        (m, .error .fileTruncated)
  else
    resolveOffsetAndFinish f file m

/-- The full starting-offset rule of `NewReaderFromMetadata` (source lines
120-152): the copy-truncate reset followed by the starting-offset decision. -/
def startingOffset (f : Factory) (fileSize storedOffset : Int) : Int :=
  resolveStart f fileSize (resetOffset storedOffset fileSize)

/-! ## Helper lemmas -/

lemma scanPartners_eq_false_of_partner (old : PollReader) :
    ∀ cur : List PollReader,
      (∃ n ∈ cur, n.fingerprint.StartsWith old.fingerprint = true) →
      scanPartners old cur = false := by
  intro cur
  induction cur with
  | nil => rintro ⟨n, hn, -⟩; exact absurd hn (List.not_mem_nil n)
  | cons c rest ih =>
    rintro ⟨n, hn, hfp⟩
    rcases List.mem_cons.mp hn with h | h
    · subst h
      simp [scanPartners, hfp]
    · by_cases h1 : c.fingerprint.StartsWith old.fingerprint
      · simp [scanPartners, h1]
      · by_cases h2 : c.NameEquals old
        · by_cases h3 : old.Validate
          · simp [scanPartners, h1, h2, h3, ih ⟨n, h, hfp⟩]
          · simp [scanPartners, h1, h2, h3]
        · simp [scanPartners, h1, h2, ih ⟨n, h, hfp⟩]

lemma scanPartners_eq_false_of_truncated (old : PollReader) (hval : old.validates = false) :
    ∀ cur : List PollReader,
      (∃ n ∈ cur, n.NameEquals old = true) →
      scanPartners old cur = false := by
  intro cur
  induction cur with
  | nil => rintro ⟨n, hn, -⟩; exact absurd hn (List.not_mem_nil n)
  | cons c rest ih =>
    rintro ⟨n, hn, hname⟩
    rcases List.mem_cons.mp hn with h | h
    · subst h
      by_cases h1 : n.fingerprint.StartsWith old.fingerprint
      · simp [scanPartners, h1]
      · simp [scanPartners, h1, hname, PollReader.Validate, hval]
    · by_cases h1 : c.fingerprint.StartsWith old.fingerprint
      · simp [scanPartners, h1]
      · by_cases h2 : c.NameEquals old
        · simp [scanPartners, h1, h2, PollReader.Validate, hval]
        · simp [scanPartners, h1, h2, ih ⟨n, h, hname⟩]

lemma scanPartners_eq_true_of_moved (old : PollReader) (hval : old.validates = true) :
    ∀ cur : List PollReader,
      (∀ n ∈ cur, n.fingerprint.StartsWith old.fingerprint = false) →
      scanPartners old cur = true := by
  intro cur
  induction cur with
  | nil => intro; rfl
  | cons c rest ih =>
    intro hno
    have h1 : c.fingerprint.StartsWith old.fingerprint = false := hno c (by simp)
    have hrest : ∀ n ∈ rest, n.fingerprint.StartsWith old.fingerprint = false :=
      fun n hn => hno n (List.mem_cons_of_mem c hn)
    by_cases h2 : c.NameEquals old
    · simp [scanPartners, h1, h2, PollReader.Validate, hval, ih hrest]
    · simp [scanPartners, h1, h2, ih hrest]

lemma resolveOffsetAndFinish_ok (f : Factory) (file : FileHandle) (m : Metadata)
    (r : Reader) (h : (resolveOffsetAndFinish f file m).2 = .ok r) :
    file.statOk = true ∧
    ∃ attrs, file.resolveResult = some attrs ∧
      r.metadata.fingerprint = m.fingerprint ∧
      r.metadata.offset = startingOffset f (file.content.length : Int) m.offset ∧
      r.metadata.fileAttributes = mapsCopy m.fileAttributes attrs := by
  rw [resolveOffsetAndFinish] at h
  by_cases hstat : file.statOk = true
  · rw [if_pos hstat] at h
    dsimp only at h
    by_cases hh : (f.headerConfigPresent && !m.headerFinalized && !f.headerReaderOk) = true
    · rw [if_pos hh] at h
      simp at h
    · rw [if_neg hh] at h
      rcases hres : file.resolveResult with _ | attrs
      · rw [hres] at h
        simp at h
      · rw [hres] at h
        simp only [Except.ok.injEq] at h
        subst h
        exact ⟨hstat, attrs, rfl, rfl, rfl, rfl⟩
  · rw [if_neg hstat] at h
    simp at h

lemma resolveOffsetAndFinish_fst_fingerprint (f : Factory) (file : FileHandle)
    (m : Metadata) : (resolveOffsetAndFinish f file m).1.fingerprint = m.fingerprint := by
  rw [resolveOffsetAndFinish]
  split
  · dsimp only
    split
    · rfl
    · split <;> rfl
  · rfl

lemma NewReaderFromMetadata_ok (f : Factory) (file : FileHandle) (m : Metadata)
    (r : Reader) (h : (NewReaderFromMetadata f file m).2 = .ok r) :
    ∃ attrs, file.resolveResult = some attrs ∧
      r.metadata.offset = startingOffset f (file.content.length : Int) m.offset ∧
      r.metadata.fileAttributes = mapsCopy m.fileAttributes attrs := by
  rw [NewReaderFromMetadata] at h
  by_cases hlen : m.fingerprint.length > f.fingerprintSize
  · rw [if_pos hlen] at h
    rcases hfp : Fingerprint.NewFromFile file f.fingerprintSize with _ | shorter
    · rw [hfp] at h
      simp at h
    · rw [hfp] at h
      dsimp only at h
      by_cases hsw : m.fingerprint.StartsWith shorter = true
      · rw [if_pos hsw] at h
        obtain ⟨-, attrs, h1, -, h3, h4⟩ := resolveOffsetAndFinish_ok f file _ r h
        exact ⟨attrs, h1, h3, h4⟩
      · rw [if_neg hsw] at h
        simp at h
  · rw [if_neg hlen] at h
    obtain ⟨-, attrs, h1, -, h3, h4⟩ := resolveOffsetAndFinish_ok f file m r h
    exact ⟨attrs, h1, h3, h4⟩

lemma lookupA_mapAssign (kv : String × String) (k : String) :
    ∀ d : List (String × String),
      lookupA (mapAssign d kv) k = if k = kv.1 then some kv.2 else lookupA d k := by
  intro d
  induction d with
  | nil =>
    rcases eq_or_ne k kv.1 with h | h
    · simp [mapAssign, lookupA, h]
    · simp [mapAssign, lookupA, h, Ne.symm h]
  | cons p rest ih =>
    by_cases hp : p.1 = kv.1
    · rcases eq_or_ne k kv.1 with h | h
      · simp [mapAssign, lookupA, hp, h]
      · simp [mapAssign, lookupA, hp, h, Ne.symm h]
    · rcases eq_or_ne k kv.1 with h | h
      · subst h
        simp [mapAssign, lookupA, hp, ih]
      · by_cases hpk : p.1 = k
        · simp [mapAssign, lookupA, hp, hpk, h]
        · simp [mapAssign, lookupA, hp, hpk, h, ih]

lemma lookupA_eq_none_of_not_mem (k : String) :
    ∀ l : List (String × String), k ∉ l.map Prod.fst → lookupA l k = none := by
  intro l
  induction l with
  | nil => intro; rfl
  | cons p rest ih =>
    intro hk
    have h1 : p.1 ≠ k := fun he => hk (by simp [he])
    have h2 : k ∉ rest.map Prod.fst := fun he => hk (by simp [he])
    simp [lookupA, h1, ih h2]

lemma lookupA_mapsCopy_of_none (k : String) :
    ∀ (src dst : List (String × String)), lookupA src k = none →
      lookupA (mapsCopy dst src) k = lookupA dst k := by
  intro src
  induction src with
  | nil => intro dst _; rfl
  | cons s rest ih =>
    intro dst hnone
    rw [lookupA] at hnone
    by_cases hs : s.1 = k
    · simp [hs] at hnone
    · rw [if_neg hs] at hnone
      show lookupA (mapsCopy (mapAssign dst s) rest) k = lookupA dst k
      rw [ih (mapAssign dst s) hnone, lookupA_mapAssign, if_neg (Ne.symm hs)]

lemma lookupA_mapsCopy_of_some (k : String) (v : String) :
    ∀ (src dst : List (String × String)), (src.map Prod.fst).Nodup →
      lookupA src k = some v →
      lookupA (mapsCopy dst src) k = some v := by
  intro src
  induction src with
  | nil => intro dst _ h; exact absurd h (by simp [lookupA])
  | cons s rest ih =>
    intro dst hnd hsome
    have hnd' : (rest.map Prod.fst).Nodup := (List.nodup_cons.mp (by simpa using hnd)).2
    have hs : s.1 ∉ rest.map Prod.fst := (List.nodup_cons.mp (by simpa using hnd)).1
    rw [lookupA] at hsome
    by_cases hk : s.1 = k
    · rw [if_pos hk] at hsome
      have hrest : lookupA rest k = none := lookupA_eq_none_of_not_mem k rest (hk ▸ hs)
      show lookupA (mapsCopy (mapAssign dst s) rest) k = some v
      rw [lookupA_mapsCopy_of_none k rest (mapAssign dst s) hrest,
        lookupA_mapAssign, if_pos (Eq.symm hk)]
      simpa using hsome
    · rw [if_neg hk] at hsome
      exact ih (mapAssign dst s) hnd' hsome

/-! ## Claim theorems: lost-file reconciliation -/

/-- C1: in `readLostFiles`, a previous-poll reader `old` with some current-poll
partner `new` satisfying `new.Fingerprint.StartsWith(old.Fingerprint)` is never
appended to the lost set; moreover the scan for `old` stops at the first such
partner: as soon as the head of the remaining partner list satisfies the test,
the scan result is settled as not-lost irrespective of all later partners. -/
theorem readLostFiles_prefix_partner_clears :
    (∀ prev cur old, old ∈ prev →
        (∃ n ∈ cur, n.fingerprint.StartsWith old.fingerprint = true) →
        old ∉ readLostFiles false prev cur) ∧
    (∀ (old n : PollReader) (rest : List PollReader),
        n.fingerprint.StartsWith old.fingerprint = true →
        scanPartners old (n :: rest) = false) := by
  constructor
  · intro prev cur old _ hex hcontra
    have hscan := scanPartners_eq_false_of_partner old cur hex
    simp [readLostFiles, List.mem_filter, hscan] at hcontra
  · intro old n rest h
    simp [scanPartners, h]

def c1Old : PollReader := ⟨"a.log", [1], true⟩

def c1New : PollReader := ⟨"b.log", [1, 2], true⟩

/-- Witness for C1 at a concrete grown file. -/
theorem readLostFiles_prefix_partner_clears_witness :
    c1Old ∉ readLostFiles false [c1Old] [c1New] ∧
    scanPartners c1Old (c1New :: []) = false :=
  ⟨readLostFiles_prefix_partner_clears.1 [c1Old] [c1New] c1Old (by simp)
      ⟨c1New, by simp, by decide⟩,
    readLostFiles_prefix_partner_clears.2 c1Old c1New [] (by decide)⟩

/-- C5: for a previous-poll reader `old` with no fingerprint-prefix partner in
the current poll: a same-name partner together with a failed `Validate`
(truncated in place) clears `old` from the lost set, while a successful
`Validate` (moved/renamed) leaves `old` lost. -/
theorem readLostFiles_name_match_validate :
    (∀ prev cur old, old ∈ prev →
        (∀ n ∈ cur, n.fingerprint.StartsWith old.fingerprint = false) →
        (∃ n ∈ cur, n.NameEquals old = true) →
        old.validates = false →
        old ∉ readLostFiles false prev cur) ∧
    (∀ prev cur old, old ∈ prev →
        (∀ n ∈ cur, n.fingerprint.StartsWith old.fingerprint = false) →
        old.validates = true →
        old ∈ readLostFiles false prev cur) := by
  constructor
  · intro prev cur old _ _ hname hval hcontra
    have hscan := scanPartners_eq_false_of_truncated old hval cur hname
    simp [readLostFiles, List.mem_filter, hscan] at hcontra
  · intro prev cur old hmem hno hval
    have hscan := scanPartners_eq_true_of_moved old hval cur hno
    simp [readLostFiles, List.mem_filter, hscan, hmem]

def c5Truncated : PollReader := ⟨"t.log", [9, 9], false⟩

def c5TruncNew : PollReader := ⟨"t.log", [5], true⟩

def c5Moved : PollReader := ⟨"m.log", [9, 9], true⟩

def c5MovedNew : PollReader := ⟨"m.log", [5], true⟩

/-- Witness for C5: a truncated-in-place reader is cleared; a moved one is lost. -/
theorem readLostFiles_name_match_validate_witness :
    c5Truncated ∉ readLostFiles false [c5Truncated] [c5TruncNew] ∧
    c5Moved ∈ readLostFiles false [c5Moved] [c5MovedNew] :=
  ⟨readLostFiles_name_match_validate.1 [c5Truncated] [c5TruncNew] c5Truncated
      (by simp) (by decide) ⟨c5TruncNew, by simp, by decide⟩ rfl,
    readLostFiles_name_match_validate.2 [c5Moved] [c5MovedNew] c5Moved
      (by simp) (by decide) rfl⟩

/-- C6: with the delete-at-EOF policy enabled, `readLostFiles` returns
immediately: whatever the previous and current poll sets hold, the lost set is
empty, so the drain loop has no reader to read. -/
theorem readLostFiles_deleteAtEOF_empty (prev cur : List PollReader) :
    readLostFiles true prev cur = [] := rfl

def c7Old : PollReader := ⟨"A.log", [1, 2], true⟩

def c7New : PollReader := ⟨"A.log", [1], true⟩

/-- Counterexample to C7 as stated: readers at the same path where the NEW
fingerprint is a (strict) byte-prefix of the OLD one — the path now holds a
shorter file, as after rotation by rename — while the old reader still
validates against its moved file. The old reader IS in the lost set. -/
theorem readLostFiles_new_prefix_of_old_cex :
    c7New.fileName = c7Old.fileName ∧
    c7New.fingerprint.isPrefixOf c7Old.fingerprint = true ∧
    c7Old ∈ readLostFiles false [c7Old] [c7New] := by
  refine ⟨rfl, rfl, ?_⟩
  decide

/-- C7 amended: a previous-poll reader tracking a file at the same path whose
OLD fingerprint is a byte-prefix of its new fingerprint (content only grew:
the new fingerprint extends the old one) does not appear in the lost set. -/
theorem readLostFiles_grown_file_not_lost
    (prev cur : List PollReader) (old : PollReader)
    (_hmem : old ∈ prev)
    (hpartner : ∃ n ∈ cur, n.NameEquals old = true ∧
        n.fingerprint.StartsWith old.fingerprint = true) :
    old ∉ readLostFiles false prev cur := by
  obtain ⟨n, hn, -, hfp⟩ := hpartner
  intro hcontra
  have hscan := scanPartners_eq_false_of_partner old cur ⟨n, hn, hfp⟩
  simp [readLostFiles, List.mem_filter, hscan] at hcontra

def c7GrownOld : PollReader := ⟨"g.log", [3], true⟩

def c7GrownNew : PollReader := ⟨"g.log", [3, 4], true⟩

/-- Witness for amended C7 at a concretely grown file. -/
theorem readLostFiles_grown_file_not_lost_witness :
    c7GrownOld ∉ readLostFiles false [c7GrownOld] [c7GrownNew] :=
  readLostFiles_grown_file_not_lost [c7GrownOld] [c7GrownNew] c7GrownOld
    (by simp) ⟨c7GrownNew, by simp, by decide, by decide⟩

/-! ## Claim theorems: Reader construction -/

def c2Factory : Factory := ⟨false, 16, false, true⟩

def c2File : FileHandle := ⟨"f.log", List.replicate 200 65, true, true, some []⟩

def c2Meta : Metadata := ⟨List.replicate 16 65, 1000, [], true⟩

def c2Reader : Reader := ⟨"f.log", ⟨List.replicate 16 65, 200, [], true⟩⟩

set_option maxRecDepth 8192 in
/-- Counterexample to C2 as stated: stored offset 1000 exceeds the statted
file size 200; construction does succeed, but under the tailing policy
(FromBeginning = false) the constructed Reader's offset is the file size 200,
not 0. -/
theorem newReaderFromMetadata_copy_truncate_cex :
    c2Meta.offset = 1000 ∧ (c2File.content.length : Int) = 200 ∧
    (NewReaderFromMetadata c2Factory c2File c2Meta).2 = .ok c2Reader ∧
    c2Reader.metadata.offset = 200 := by
  refine ⟨rfl, rfl, rfl, rfl⟩

/-- C2 amended: when the stored offset exceeds the statted file size, the
offset is reset to 0 (not surfaced as an error) and construction proceeds:
provided the unrelated steps succeed, a Reader is produced whose offset is 0
under FromBeginning and the current file size under the tailing policy. -/
theorem newReaderFromMetadata_copy_truncate_resets
    (f : Factory) (file : FileHandle) (m : Metadata)
    (attrs : List (String × String))
    (hlen : ¬ m.fingerprint.length > f.fingerprintSize)
    (hstat : file.statOk = true)
    (hheader : (f.headerConfigPresent && !m.headerFinalized && !f.headerReaderOk) = false)
    (hres : file.resolveResult = some attrs)
    (hoff : m.offset > (file.content.length : Int)) :
    ∃ r, (NewReaderFromMetadata f file m).2 = .ok r ∧
      r.metadata.offset = (if f.fromBeginning then 0 else (file.content.length : Int)) := by
  rw [NewReaderFromMetadata, if_neg hlen, resolveOffsetAndFinish, if_pos hstat]
  dsimp only
  have hh' : ¬ ((f.headerConfigPresent && !m.headerFinalized && !f.headerReaderOk) = true) := by
    simp [hheader]
  rw [if_neg hh', hres]
  dsimp only
  refine ⟨_, rfl, ?_⟩
  dsimp only
  rw [resetOffset, if_pos hoff, resolveStart, if_pos rfl]

def c2wFactory : Factory := ⟨true, 16, false, true⟩

set_option maxRecDepth 8192 in
/-- Witness for amended C2: offset 1000 against size 200 under FromBeginning
yields a Reader at offset 0. -/
theorem newReaderFromMetadata_copy_truncate_resets_witness :
    ∃ r, (NewReaderFromMetadata c2wFactory c2File c2Meta).2 = .ok r ∧
      r.metadata.offset = (if c2wFactory.fromBeginning then 0 else (c2File.content.length : Int)) :=
  newReaderFromMetadata_copy_truncate_resets c2wFactory c2File c2Meta []
    (by decide) rfl rfl rfl (by decide)

/-- C3: when the stored fingerprint is longer than the configured size, a
shorter fingerprint is recomputed from the file; if the stored fingerprint
does not start-with the recomputed one, construction fails with the
truncation error and no Reader is returned; otherwise the metadata's
fingerprint is replaced by the shorter one and construction continues exactly
as if the metadata had carried the shorter fingerprint. -/
theorem newReaderFromMetadata_fingerprint_shrink
    (f : Factory) (file : FileHandle) (m : Metadata) (shorter : Fingerprint)
    (hlen : m.fingerprint.length > f.fingerprintSize)
    (hre : Fingerprint.NewFromFile file f.fingerprintSize = some shorter) :
    (m.fingerprint.StartsWith shorter = false →
      NewReaderFromMetadata f file m = (m, .error .fileTruncated)) ∧
    (m.fingerprint.StartsWith shorter = true →
      NewReaderFromMetadata f file m
        = NewReaderFromMetadata f file { m with fingerprint := shorter } ∧
      (NewReaderFromMetadata f file m).1.fingerprint = shorter) := by
  have hshort : ¬ shorter.length > f.fingerprintSize := by
    rw [Fingerprint.NewFromFile] at hre
    by_cases hio : file.fpReadOk = true
    · rw [if_pos hio, Option.some.injEq] at hre
      subst hre
      have ht := List.length_take f.fingerprintSize file.content
      omega
    · rw [if_neg hio] at hre
      exact absurd hre (by simp)
  constructor
  · intro hsw
    rw [NewReaderFromMetadata, if_pos hlen, hre]
    dsimp only
    rw [if_neg (by simp [hsw])]
  · intro hsw
    have heq : NewReaderFromMetadata f file m
        = resolveOffsetAndFinish f file { m with fingerprint := shorter } := by
      rw [NewReaderFromMetadata, if_pos hlen, hre]
      dsimp only
      rw [if_pos hsw]
    have heq2 : NewReaderFromMetadata f file { m with fingerprint := shorter }
        = resolveOffsetAndFinish f file { m with fingerprint := shorter } := by
      rw [NewReaderFromMetadata, if_neg hshort]
    refine ⟨heq.trans heq2.symm, ?_⟩
    rw [heq, resolveOffsetAndFinish_fst_fingerprint]

def c3Factory : Factory := ⟨true, 2, false, true⟩

def c3File : FileHandle := ⟨"s.log", [1, 2, 9], true, true, some []⟩

def c3Meta : Metadata := ⟨[1, 2, 3], 0, [], true⟩

/-- Witness for C3: a 3-byte stored fingerprint against configured size 2 with
matching recomputed prefix. -/
theorem newReaderFromMetadata_fingerprint_shrink_witness :
    NewReaderFromMetadata c3Factory c3File c3Meta
      = NewReaderFromMetadata c3Factory c3File { c3Meta with fingerprint := [1, 2] } ∧
    (NewReaderFromMetadata c3Factory c3File c3Meta).1.fingerprint = [1, 2] :=
  (newReaderFromMetadata_fingerprint_shrink c3Factory c3File c3Meta [1, 2]
    (by decide) rfl).2 (by decide)

/-- C4: for every successful construction, the Reader's starting offset is, in
priority order: the stored offset after the copy-truncate guard when non-zero;
otherwise 0 under FromBeginning; otherwise the file's current size. -/
theorem newReaderFromMetadata_offset_resolution
    (f : Factory) (file : FileHandle) (m : Metadata) (r : Reader)
    (h : (NewReaderFromMetadata f file m).2 = .ok r) :
    r.metadata.offset =
      if resetOffset m.offset (file.content.length : Int) ≠ 0 then
        resetOffset m.offset (file.content.length : Int)
      else if f.fromBeginning then 0
      else (file.content.length : Int) := by
  obtain ⟨attrs, -, hoff, -⟩ := NewReaderFromMetadata_ok f file m r h
  rw [hoff, startingOffset, resolveStart]
  by_cases hz : resetOffset m.offset (file.content.length : Int) = 0
  · simp [hz]
  · simp [hz]

def c4Factory : Factory := ⟨true, 8, false, true⟩

def c4File : FileHandle := ⟨"r.log", [1, 2, 3], true, true, some []⟩

def c4Meta : Metadata := ⟨[1], 2, [], true⟩

def c4Reader : Reader := ⟨"r.log", ⟨[1], 2, [], true⟩⟩

/-- Witness for C4: a stored offset 2 within a 3-byte file is resumed as-is. -/
theorem newReaderFromMetadata_offset_resolution_witness :
    c4Reader.metadata.offset =
      if resetOffset c4Meta.offset (c4File.content.length : Int) ≠ 0 then
        resetOffset c4Meta.offset (c4File.content.length : Int)
      else if c4Factory.fromBeginning then 0
      else (c4File.content.length : Int) :=
  newReaderFromMetadata_offset_resolution c4Factory c4File c4Meta c4Reader rfl

/-- C8: on success the freshly resolved attributes are merged into the
metadata's existing attribute map, never replacing it: a key absent from the
fresh resolution keeps its prior value, and a freshly resolved key takes the
fresh value. -/
theorem newReaderFromMetadata_attributes_merge
    (f : Factory) (file : FileHandle) (m : Metadata) (r : Reader)
    (attrs : List (String × String)) (k : String)
    (h : (NewReaderFromMetadata f file m).2 = .ok r)
    (hres : file.resolveResult = some attrs)
    (hnd : (attrs.map Prod.fst).Nodup) :
    (lookupA attrs k = none →
      lookupA r.metadata.fileAttributes k = lookupA m.fileAttributes k) ∧
    (∀ v, lookupA attrs k = some v →
      lookupA r.metadata.fileAttributes k = some v) := by
  obtain ⟨attrs', hres', -, hattrs⟩ := NewReaderFromMetadata_ok f file m r h
  rw [hres] at hres'
  cases hres'
  constructor
  · intro hnone
    rw [hattrs]
    exact lookupA_mapsCopy_of_none k attrs m.fileAttributes hnone
  · intro v hv
    rw [hattrs]
    exact lookupA_mapsCopy_of_some k v attrs m.fileAttributes hnd hv

def c8Factory : Factory := ⟨true, 8, false, true⟩

def c8Attrs : List (String × String) := [("b", "9"), ("c", "3")]

def c8File : FileHandle := ⟨"c.log", [7], true, true, some c8Attrs⟩

def c8Meta : Metadata := ⟨[7], 0, [("a", "1"), ("b", "2")], true⟩

def c8Reader : Reader := ⟨"c.log", ⟨[7], 0, [("a", "1"), ("b", "9"), ("c", "3")], true⟩⟩

/-- Witness for C8 at key "a", absent from the fresh resolution. -/
theorem newReaderFromMetadata_attributes_merge_witness :
    (lookupA c8Attrs "a" = none →
      lookupA c8Reader.metadata.fileAttributes "a" = lookupA c8Meta.fileAttributes "a") ∧
    (∀ v, lookupA c8Attrs "a" = some v →
      lookupA c8Reader.metadata.fileAttributes "a" = some v) :=
  newReaderFromMetadata_attributes_merge c8Factory c8File c8Meta c8Reader c8Attrs "a"
    rfl rfl (by decide)

def c9Factory : Factory := ⟨true, 2, false, true⟩

def c9File : FileHandle := ⟨"g.log", [1, 2, 9, 9], true, false, some []⟩

def c9Meta : Metadata := ⟨[1, 2, 3], 5, [], true⟩

def c9Factory2 : Factory := ⟨true, 8, true, false⟩

def c9File2 : FileHandle := ⟨"h.log", [1, 2], true, true, some []⟩

def c9Meta2 : Metadata := ⟨[1, 2], 5, [], false⟩

/-- C9: `NewReaderFromMetadata` is not atomic in its metadata argument on
failure: at the first input the fingerprint has already been replaced by the
shorter recomputed one when the stat failure aborts construction, and at the
second the offset has already been reset on the copy-truncate path when the
header-reader construction failure aborts it; in both cases the caller's
metadata is left changed although no Reader was produced. -/
theorem newReaderFromMetadata_mutates_on_error :
    ((NewReaderFromMetadata c9Factory c9File c9Meta).2 = .error .statFailed ∧
      (NewReaderFromMetadata c9Factory c9File c9Meta).1.fingerprint = [1, 2] ∧
      (NewReaderFromMetadata c9Factory c9File c9Meta).1.fingerprint ≠ c9Meta.fingerprint) ∧
    ((NewReaderFromMetadata c9Factory2 c9File2 c9Meta2).2 = .error .headerFailed ∧
      (NewReaderFromMetadata c9Factory2 c9File2 c9Meta2).1.offset = 0 ∧
      c9Meta2.offset = 5) :=
  ⟨⟨rfl, rfl, by decide⟩, ⟨rfl, rfl, rfl⟩⟩
